import Mathlib

/-!
# Verification of the connection-resilience layer (`internal/tesla`)

Shallow embedding of the retry/backoff executor, the circuit breaker and the
connection-lifecycle operations from `internal/tesla/client.go` and
`internal/tesla/ble_manager.go`.

Conventions of the embedding:
* `time.Duration` / `time.Time` values are nanosecond counts, modelled as `ℤ`
  (the Go zero `time.Time` is the timestamp `0`).
* Go `int` fields are modelled as `ℤ`.
* `float64` arithmetic in `calculateDelay` is modelled over `ℚ`.  The constants
  involved (`0.25`, `0.5`) and the operations (multiply, add, compare, `Pow`
  with a natural exponent) are the exact rational operations; the final
  `time.Duration(delay)` conversion truncates toward zero, modelled by
  `durTrunc`.
* `float64(time.Now().UnixNano())` converts an `int64` to the nearest
  representable `float64`; every representable `float64` obtained this way is a
  whole number (the conversion is exact below `2^53` and all representable
  values of magnitude ≥ `2^52` are integers), so we model it as an integer cast
  into `ℚ`.  Consequently `math.Mod(x, 1.0)`, which for nonnegative whole `x`
  is `0`, is modelled as `Int.fract` of that integer cast.
* Pointer fields that the code only compares against `nil`
  (`Client.vehicle`, `Client.conn`, `BLEConnection.vehicle`,
  `BLEConnection.conn`) are modelled as `Bool` presence flags.
* Functions that are invoked for their result/error are modelled by a `Bool`
  (`true` = the invocation fails) or by an invocation-indexed `ℕ → Bool`;
  every operation additionally reports whether the wrapped function was
  actually invoked, so that "the wrapped function is not called" is provable.
-/

namespace Tesla

/-- `RetryConfig` from client.go (lines 29–35): `MaxRetries : int`,
`InitialDelay, MaxDelay : time.Duration` (ns, as `ℤ`),
`BackoffFactor : float64` (as `ℚ`), `Jitter : bool`. -/
structure RetryConfig where
  maxRetries : ℤ
  initialDelay : ℤ
  maxDelay : ℤ
  backoffFactor : ℚ
  jitter : Bool
deriving DecidableEq, Repr

/-- `CircuitBreakerConfig` from client.go (lines 38–42). -/
structure CircuitBreakerConfig where
  maxFailures : ℤ
  resetTimeout : ℤ
  halfOpenMaxCalls : ℤ
deriving DecidableEq, Repr

/-- `CircuitBreakerState` from client.go (lines 45–51):
`CircuitClosed`, `CircuitOpen`, `CircuitHalfOpen`. -/
inductive CBState where
  | closed
  | opened
  | halfOpen
deriving DecidableEq, Repr

/-- `CircuitBreaker` from client.go (lines 54–61); the `sync.RWMutex` is not
part of the mathematical state. -/
structure CircuitBreaker where
  config : CircuitBreakerConfig
  state : CBState
  failureCount : ℤ
  lastFailTime : ℤ
  successCount : ℤ
deriving DecidableEq, Repr

/-- `NewCircuitBreaker` from client.go (lines 143–148): state `CircuitClosed`,
all remaining fields at their Go zero values. -/
def NewCircuitBreaker (config : CircuitBreakerConfig) : CircuitBreaker :=
  { config := config
    state := .closed
    failureCount := 0
    lastFailTime := 0
    successCount := 0 }

/-- Go conversion of a `float64` to an integer type (`time.Duration(delay)`,
client.go line 318): truncation toward zero. -/
def durTrunc (q : ℚ) : ℤ :=
  if 0 ≤ q then ⌊q⌋ else ⌈q⌉

/-- `Client.calculateDelay` from client.go (lines 303–319).
`attempt` is the loop index (always ≥ 0 at call sites, modelled as `ℕ`);
`nowNano` is `time.Now().UnixNano()`.  The jitter branch computes
`delay * 0.25 * (0.5 - math.Mod(float64(nowNano), 1.0))`; per the conventions
above the `math.Mod` argument is a whole number, modelled as `Int.fract` of an
integer cast. -/
def calculateDelay (c : RetryConfig) (attempt : ℕ) (nowNano : ℤ) : ℤ :=
  let delay : ℚ := (c.initialDelay : ℚ) * c.backoffFactor ^ attempt
  let delay : ℚ := if delay > (c.maxDelay : ℚ) then (c.maxDelay : ℚ) else delay
  let delay : ℚ :=
    if c.jitter then
      delay + delay * (1/4) * (1/2 - Int.fract ((nowNano : ℚ)))
    else delay
  durTrunc delay

/-- `ConnectionState` from ble_manager.go (lines 28–37). -/
inductive ConnState where
  | disconnected
  | scanning
  | connecting
  | connected
  | sessionActive
  | error
deriving DecidableEq, Repr

/-- `BLEConnection` from ble_manager.go (lines 59–70); the `*ble.Connection`
and `*vehicle.Vehicle` pointers are modelled by presence flags, `lastError` by
a presence flag, and the logger/mutex are omitted. -/
structure BLEConnection where
  vin : String
  conn : Bool
  vehicle : Bool
  state : ConnState
  lastError : Bool
  connectedAt : ℤ
  sessionActive : Bool
deriving DecidableEq, Repr

/-- `BLEConnection.Disconnect` from ble_manager.go (lines 241–261): calls the
release methods on `vehicle`/`conn` when present (external side effects), then
unconditionally sets `state = StateDisconnected`, `sessionActive = false`,
`vehicle = nil`, `conn = nil`.  The Go method returns nothing and is total
(both external calls are nil-guarded), which the totality of this function
reflects. -/
def BLEConnection.disconnect (bc : BLEConnection) : BLEConnection :=
  { bc with
      state := .disconnected
      sessionActive := false
      vehicle := false
      conn := false }

/-- `Client` from client.go (lines 64–73); `vehicle`/`conn` pointers as
presence flags, logger and mutexes omitted, `lastHealthCheck` as a nanosecond
timestamp (Go zero value `0`). -/
structure Client where
  vehicle : Bool
  vin : String
  conn : Bool
  retryConfig : RetryConfig
  circuitBreaker : CircuitBreaker
  lastHealthCheck : ℤ
deriving DecidableEq, Repr

/-- `Client.Disconnect` from client.go (lines 513–521): invokes
`c.vehicle.Disconnect()` iff `c.vehicle != nil` and `c.conn.Close()` iff
`c.conn != nil` (the two returned flags), logs, and mutates no field of `c`
(the returned client).  The Go method returns nothing and is total. -/
def Client.disconnect (c : Client) : Client × Bool × Bool :=
  (c, c.vehicle, c.conn)

/-- `Client.IsConnected` from client.go (lines 887–889):
`c.vehicle != nil && c.conn != nil`. -/
def Client.isConnected (c : Client) : Bool :=
  c.vehicle && c.conn

/-- Result of a `CircuitBreaker.Call`: `nil`, the wrapped function's own
error, or `ErrCircuitOpen`. -/
inductive CBResult where
  | ok
  | errOp
  | circuitOpen
deriving DecidableEq, Repr

/-- First phase of `CircuitBreaker.Call` (client.go lines 156–163): the lazy
open-state check.  If the breaker is `CircuitOpen` and `resetTimeout` has not
yet elapsed since `lastFailTime`, the call fails fast (`Sum.inl`, carrying the
full return value `ErrCircuitOpen` / unchanged breaker / not-invoked);
otherwise the call proceeds (`Sum.inr`) with the breaker moved to
`CircuitHalfOpen` (with `successCount = 0`) in the elapsed case. -/
def CircuitBreaker.openCheck (cb : CircuitBreaker) (now : ℤ) :
    (CBResult × CircuitBreaker × Bool) ⊕ CircuitBreaker :=
  if cb.state = .opened then
    if now - cb.lastFailTime > cb.config.resetTimeout then
      .inr { cb with state := .halfOpen, successCount := 0 }
    else
      .inl (.circuitOpen, cb, false)
  else
    .inr cb

/-- Second phase of `CircuitBreaker.Call` (client.go lines 166–189): the
half-open budget check followed by the actual invocation.  `fnFails` is the
outcome the wrapped function would produce.  Returns the call result, the
updated breaker, and whether the wrapped function was invoked. -/
def CircuitBreaker.exec (cb : CircuitBreaker) (now : ℤ) (fnFails : Bool) :
    CBResult × CircuitBreaker × Bool :=
  if cb.state = .halfOpen ∧ cb.successCount ≥ cb.config.halfOpenMaxCalls then
    (.circuitOpen, cb, false)
  else if fnFails then
    let cb := { cb with failureCount := cb.failureCount + 1, lastFailTime := now }
    let cb :=
      if cb.failureCount ≥ cb.config.maxFailures then
        { cb with state := .opened }
      else cb
    (.errOp, cb, true)
  else
    let cb := { cb with failureCount := 0, successCount := cb.successCount + 1 }
    let cb := if cb.state = .halfOpen then { cb with state := .closed } else cb
    (.ok, cb, true)

/-- `CircuitBreaker.Call` from client.go (lines 151–190), composed from the
two phases above.  `now` is the current time in ns (read once per call, for
both the `time.Since(lastFailTime)` comparison and the recorded failure
time). -/
def CircuitBreaker.call (cb : CircuitBreaker) (now : ℤ) (fnFails : Bool) :
    CBResult × CircuitBreaker × Bool :=
  match cb.openCheck now with
  | .inl r => r
  | .inr cb => cb.exec now fnFails

/-- A sequence of `Call`s whose wrapped function fails every time, executed at
the given times, returning the final breaker. -/
def callsFail (cb : CircuitBreaker) (times : List ℤ) : CircuitBreaker :=
  times.foldl (fun b t => (b.call t true).2.1) cb

/-- The breakers reachable from `NewCircuitBreaker` by any sequence of
`Call`s, at arbitrary times and with arbitrary wrapped-function outcomes. -/
inductive CircuitBreaker.Reachable : CircuitBreaker → Prop where
  | base (cfg : CircuitBreakerConfig) : Reachable (NewCircuitBreaker cfg)
  | step {cb : CircuitBreaker} (now : ℤ) (fnFails : Bool) :
      Reachable cb → Reachable (cb.call now fnFails).2.1

/-- The error wrapped in the `lastErr` slot of `retryWithBackoff`: either the
wrapped function's error from its `i`-th invocation (invocations are numbered
from 0), or `ErrCircuitOpen` produced by the breaker without invoking the
function. -/
inductive RetryErr where
  | fnErr (i : ℕ)
  | circuitOpen
deriving DecidableEq, Repr

/-- Return value of `Client.retryWithBackoff`: `nil`, the context's error, or
the `fmt.Errorf("%w: %s failed after %d attempts: %v", ErrRetryExhausted,
operation, maxRetries+1, lastErr)` wrapper carrying the operation label, the
attempt count and the last underlying error (`none` when the loop never
ran). -/
inductive RetryOutcome where
  | ok
  | ctxErr
  | exhausted (op : String) (attempts : ℤ) (last : Option RetryErr)
deriving DecidableEq, Repr

/-- The mutable state threaded through the retry loop: the client's circuit
breaker, the current clock (ns), and instrumentation counters for the number
of wrapped-function invocations and of inter-retry sleeps performed. -/
structure RetryState where
  cb : CircuitBreaker
  now : ℤ
  invocations : ℕ
  sleeps : ℕ
deriving DecidableEq, Repr

/-- The loop body of `Client.retryWithBackoff` (client.go lines 259–296),
by recursion on the number of remaining iterations (`remaining` =
`maxRetries + 1 - attempt` clamped at 0; `attempt` is the Go loop index).
`cancelled` models a context that is already done (checked by the
`select`/`default` at the top of each iteration; a sleep's `select` never
aborts when the context is not cancelled).  `fnFails i` is the outcome of the
`i`-th actual invocation of the wrapped function.  Sleeping for delay `d`
advances the clock by `max d 0` (`time.After` of a nonpositive duration fires
immediately). -/
def retryGo (rc : RetryConfig) (cancelled : Bool) (op : String)
    (fnFails : ℕ → Bool) :
    ℕ → ℕ → RetryState → Option RetryErr → RetryOutcome × RetryState
  | 0, _, st, lastErr => (.exhausted op (rc.maxRetries + 1) lastErr, st)
  | remaining + 1, attempt, st, _lastErr =>
    if cancelled then
      (.ctxErr, st)
    else
      let r := st.cb.call st.now (fnFails st.invocations)
      let st' : RetryState :=
        { st with
            cb := r.2.1
            invocations := st.invocations + (if r.2.2 then 1 else 0) }
      match r.1 with
      | .ok => (.ok, st')
      | res =>
        -- `lastErr = err`: the wrapped function's error on this invocation,
        -- or `ErrCircuitOpen` from the breaker.
        let err : RetryErr :=
          match res with
          | .errOp => .fnErr st.invocations
          | _ => .circuitOpen
        -- "Don't retry on the last attempt" (`attempt == maxRetries`, i.e.
        -- no iterations remain); otherwise sleep for
        -- `calculateDelay(attempt)` and continue.
        match remaining with
        | 0 => (.exhausted op (rc.maxRetries + 1) (some err), st')
        | remaining + 1 =>
          let d := calculateDelay rc attempt st'.now
          retryGo rc cancelled op fnFails (remaining + 1) (attempt + 1)
            { st' with now := st'.now + max d 0, sleeps := st'.sleeps + 1 }
            (some err)

/-- `Client.retryWithBackoff` from client.go (lines 256–300): runs the loop
`for attempt := 0; attempt <= maxRetries; attempt++` starting from a given
circuit breaker, start time `t0` and fresh instrumentation counters. -/
def retryWithBackoff (rc : RetryConfig) (cb : CircuitBreaker)
    (cancelled : Bool) (op : String) (fnFails : ℕ → Bool) (t0 : ℤ) :
    RetryOutcome × RetryState :=
  retryGo rc cancelled op fnFails (rc.maxRetries + 1).toNat 0
    { cb := cb, now := t0, invocations := 0, sleeps := 0 } none

/-- Result of `Client.checkConnectionHealth`: `nil`, `ErrNotConnected`, or an
error wrapping `ErrConnectionLost`. -/
inductive HealthResult where
  | ok
  | notConnected
  | connectionLost
deriving DecidableEq, Repr

/-- `Client.checkConnectionHealth` from client.go (lines 327–349).  `now` is
the current time in ns, `probeFails` the outcome of the
`c.vehicle.GetState(ctx, StateCategoryClimate)` probe if it is issued.
Returns the result, the updated client (`lastHealthCheck` is set to `now`
only on a successful probe) and whether the probe was invoked. -/
def Client.checkConnectionHealth (c : Client) (now : ℤ) (probeFails : Bool) :
    HealthResult × Client × Bool :=
  if now - c.lastHealthCheck < 5000000000 then
    (.ok, c, false)
  else if c.vehicle = false ∨ c.conn = false then
    (.notConnected, c, false)
  else if probeFails then
    (.connectionLost, c, true)
  else
    (.ok, { c with lastHealthCheck := now }, true)

/-! ## Helper lemmas -/

/-- Truncation toward zero is monotone against an integer upper bound. -/
lemma durTrunc_le_int {q : ℚ} {m : ℤ} (h : q ≤ (m : ℚ)) : durTrunc q ≤ m := by
  unfold durTrunc
  split
  · have := Int.floor_le_floor h
    rwa [Int.floor_intCast] at this
  · have := Int.ceil_le_ceil h
    rwa [Int.ceil_intCast] at this

/-- For nonnegative arguments, truncation toward zero does not increase the
value. -/
lemma durTrunc_cast_le {q : ℚ} (h : 0 ≤ q) : (durTrunc q : ℚ) ≤ q := by
  unfold durTrunc
  rw [if_pos h]
  exact Int.floor_le q

/-- The capped pre-jitter delay is positive and bounded by `maxDelay`
whenever `maxDelay` is positive and the uncapped delay is positive. -/
lemma cappedDelay_pos_le {d0 m : ℚ} (hd0 : 0 < d0) (hm : 0 < m) :
    0 < (if d0 > m then m else d0) ∧ (if d0 > m then m else d0) ≤ m := by
  split
  · exact ⟨hm, le_refl m⟩
  · next h => exact ⟨hd0, le_of_not_lt h⟩

/-- A `Call` in the `Closed` state whose wrapped function fails increments
`failureCount`, records `lastFailTime = now`, and opens the breaker exactly
when the new count reaches `maxFailures`. -/
lemma call_closed_fail {cb : CircuitBreaker} (h : cb.state = .closed) (now : ℤ) :
    cb.call now true =
      (.errOp,
        if cb.config.maxFailures ≤ cb.failureCount + 1 then
          { cb with
              state := .opened
              failureCount := cb.failureCount + 1
              lastFailTime := now }
        else
          { cb with failureCount := cb.failureCount + 1, lastFailTime := now },
        true) := by
  simp only [CircuitBreaker.call, CircuitBreaker.openCheck, CircuitBreaker.exec, h]
  split <;> simp_all

/-- A `Call` made while the breaker is `Open` and `resetTimeout` has not yet
strictly elapsed returns `ErrCircuitOpen`, leaves the breaker unchanged and
does not invoke the wrapped function. -/
lemma call_open_failfast {cb : CircuitBreaker} {now : ℤ}
    (h : cb.state = .opened)
    (h2 : ¬ now - cb.lastFailTime > cb.config.resetTimeout) (b : Bool) :
    cb.call now b = (.circuitOpen, cb, false) := by
  simp [CircuitBreaker.call, CircuitBreaker.openCheck, h, h2]

/-- After a nonempty run of always-failing `Call`s from a `Closed` breaker
whose failure count is exactly `maxFailures` short of the threshold, the
breaker is `Open` (its config untouched). -/
lemma callsFail_opens :
    ∀ (times : List ℤ) (cb : CircuitBreaker),
      cb.state = .closed → times ≠ [] →
      cb.failureCount + times.length = cb.config.maxFailures →
      (callsFail cb times).state = .opened ∧
      (callsFail cb times).config = cb.config := by
  intro times
  induction times with
  | nil => intro cb _ htimes _; exact absurd rfl htimes
  | cons t ts ih =>
    intro cb hclosed _ hcount
    by_cases hts : ts = []
    · subst hts
      have hc : cb.config.maxFailures ≤ cb.failureCount + 1 := by
        simp at hcount; omega
      simp [callsFail, call_closed_fail hclosed, hc]
    · have htspos : (1 : ℤ) ≤ ts.length := by
        have := List.length_pos.mpr hts; omega
      have hc : ¬ cb.config.maxFailures ≤ cb.failureCount + 1 := by
        simp at hcount
        omega
      have hstep : callsFail cb (t :: ts) =
          callsFail
            { cb with failureCount := cb.failureCount + 1, lastFailTime := t }
            ts := by
        simp [callsFail, call_closed_fail hclosed, hc]
      rw [hstep]
      exact ih
        { cb with failureCount := cb.failureCount + 1, lastFailTime := t }
        hclosed hts
        (by simp at hcount ⊢; omega)

/-- One `Call` preserves the invariant "an `Open` or `HalfOpen` breaker has
`failureCount ≥ maxFailures`". -/
lemma call_preserves_inv (cb : CircuitBreaker) (now : ℤ) (b : Bool)
    (ih : cb.state = .opened ∨ cb.state = .halfOpen →
      cb.config.maxFailures ≤ cb.failureCount) :
    (cb.call now b).2.1.state = .opened ∨ (cb.call now b).2.1.state = .halfOpen →
    (cb.call now b).2.1.config.maxFailures ≤ (cb.call now b).2.1.failureCount := by
  rcases hstate : cb.state with _ | _ | _
  · simp [CircuitBreaker.call, CircuitBreaker.openCheck,
      CircuitBreaker.exec, hstate]
    intro hs
    split_ifs at hs ⊢ <;> simp_all
  · have hge := ih (Or.inl hstate)
    clear ih
    by_cases helap : now - cb.lastFailTime > cb.config.resetTimeout
    · have hcall : cb.call now b =
          CircuitBreaker.exec { cb with state := .halfOpen, successCount := 0 }
            now b := by
        simp [CircuitBreaker.call, CircuitBreaker.openCheck, hstate, helap]
      rw [hcall]
      simp [CircuitBreaker.exec]
      intro hs
      split_ifs at hs ⊢ <;> simp_all
      omega
    · rw [call_open_failfast hstate helap b]
      intro _
      exact hge
  · have hge := ih (Or.inr hstate)
    clear ih
    have hcall : cb.call now b = cb.exec now b := by
      simp [CircuitBreaker.call, CircuitBreaker.openCheck, hstate]
    rw [hcall]
    simp [CircuitBreaker.exec, hstate]
    intro hs
    split_ifs at hs ⊢ <;> simp_all
    omega

/-- Reachability invariant of the breaker: whenever a reachable breaker is
`Open` or `HalfOpen`, its failure count has reached `maxFailures` (the count
is only reset by a successful invocation, which also leaves those states). -/
lemma reachable_failureCount_ge {cb : CircuitBreaker} (h : cb.Reachable) :
    (cb.state = .opened ∨ cb.state = .halfOpen) →
    cb.config.maxFailures ≤ cb.failureCount := by
  induction h with
  | base cfg => intro hs; simp [NewCircuitBreaker] at hs
  | step now fnFails hcb ih => exact call_preserves_inv _ now _ ih

/-! ## Claims -/

/-- **C1, counterexample.** The claim "for every RetryConfig with positive
`initialDelay`, `maxDelay` and `backoffFactor` and every attempt index,
`calculateDelay(a) ≤ maxDelay`, whether or not jitter is enabled" is false:
for the positive configuration `{maxRetries 3, initialDelay 8ns, maxDelay 8ns,
backoffFactor 2, jitter on}` at attempt 0, the code caps the delay at
`maxDelay = 8` and then adds the jitter term `8 * 0.25 * (0.5 - 0) = 1`
*after* the cap, returning `9 > maxDelay`. -/
theorem C1_counterexample :
    0 < (⟨3, 8, 8, 2, true⟩ : RetryConfig).initialDelay ∧
    0 < (⟨3, 8, 8, 2, true⟩ : RetryConfig).maxDelay ∧
    0 < (⟨3, 8, 8, 2, true⟩ : RetryConfig).backoffFactor ∧
    (⟨3, 8, 8, 2, true⟩ : RetryConfig).maxDelay <
      calculateDelay ⟨3, 8, 8, 2, true⟩ 0 0 := by
  refine ⟨by norm_num, by norm_num, by norm_num, ?_⟩
  norm_num [calculateDelay, durTrunc, Int.fract_intCast]

/-- **C1, amended.** For every `RetryConfig` with positive `initialDelay`,
`maxDelay` and `backoffFactor`, every attempt index and every clock value:
with jitter disabled, `calculateDelay(a) ≤ maxDelay`; with jitter enabled the
delay may exceed `maxDelay`, but only by the post-cap jitter margin:
`calculateDelay(a) ≤ 9/8 · maxDelay` (stated integrally as
`8 · delay ≤ 9 · maxDelay`). -/
theorem C1_amended (c : RetryConfig) (hi : 0 < c.initialDelay)
    (hm : 0 < c.maxDelay) (hb : 0 < c.backoffFactor) (a : ℕ) (t : ℤ) :
    (c.jitter = false → calculateDelay c a t ≤ c.maxDelay) ∧
    8 * calculateDelay c a t ≤ 9 * c.maxDelay := by
  have hd0 : (0 : ℚ) < (c.initialDelay : ℚ) * c.backoffFactor ^ a :=
    mul_pos (by exact_mod_cast hi) (pow_pos hb a)
  have hmq : (0 : ℚ) < (c.maxDelay : ℚ) := by exact_mod_cast hm
  obtain ⟨hpos, hle⟩ := cappedDelay_pos_le hd0 hmq
  cases hj : c.jitter with
  | false =>
    have heq : calculateDelay c a t =
        durTrunc (if (c.initialDelay : ℚ) * c.backoffFactor ^ a > (c.maxDelay : ℚ)
          then (c.maxDelay : ℚ) else (c.initialDelay : ℚ) * c.backoffFactor ^ a) := by
      simp [calculateDelay, hj]
    have hbound : calculateDelay c a t ≤ c.maxDelay := by
      rw [heq]; exact durTrunc_le_int hle
    exact ⟨fun _ => hbound, by omega⟩
  | true =>
    refine ⟨fun h => by simp [hj] at h, ?_⟩
    set d1 : ℚ :=
      if (c.initialDelay : ℚ) * c.backoffFactor ^ a > (c.maxDelay : ℚ)
        then (c.maxDelay : ℚ) else (c.initialDelay : ℚ) * c.backoffFactor ^ a
      with hd1
    have heq : calculateDelay c a t = durTrunc (d1 + d1 * (1/4) * (1/2 - 0)) := by
      simp [calculateDelay, hj, Int.fract_intCast, hd1]
    have hq : d1 + d1 * (1/4) * (1/2 - 0) = (9/8) * d1 := by ring
    rw [heq, hq]
    have htr : (durTrunc ((9/8) * d1) : ℚ) ≤ (9/8) * d1 :=
      durTrunc_cast_le (by positivity)
    have h9 : (9/8 : ℚ) * d1 ≤ (9/8) * (c.maxDelay : ℚ) := by nlinarith
    have : (8 : ℚ) * (durTrunc ((9/8) * d1) : ℚ) ≤ 9 * (c.maxDelay : ℚ) := by
      nlinarith
    exact_mod_cast this

/-- **C1, witness for the amended theorem** at the positive configuration
`{maxRetries 3, initialDelay 8, maxDelay 8, backoffFactor 2, jitter off}`,
attempt 1, clock 5. -/
theorem C1_amended_witness :
    ((⟨3, 8, 8, 2, false⟩ : RetryConfig).jitter = false →
      calculateDelay ⟨3, 8, 8, 2, false⟩ 1 5 ≤
        (⟨3, 8, 8, 2, false⟩ : RetryConfig).maxDelay) ∧
    8 * calculateDelay ⟨3, 8, 8, 2, false⟩ 1 5 ≤
      9 * (⟨3, 8, 8, 2, false⟩ : RetryConfig).maxDelay :=
  C1_amended ⟨3, 8, 8, 2, false⟩ (by norm_num) (by norm_num) (by norm_num) 1 5

/-- **C2.** Starting from a fresh `Closed` breaker, after `maxFailures`
consecutive failing `Call`s (with `1 ≤ maxFailures`, as config validation
requires) the state is `CircuitOpen`, and the next `Call` made when no more
than `resetTimeout` has elapsed since the last recorded failure returns
`ErrCircuitOpen` with the breaker unchanged and without invoking the wrapped
function, whatever outcome `b` that function would have had. -/
theorem C2_open_failfast (cfg : CircuitBreakerConfig) (times : List ℤ)
    (now : ℤ) (b : Bool)
    (h1 : 1 ≤ cfg.maxFailures)
    (h2 : (times.length : ℤ) = cfg.maxFailures)
    (h3 : now - (callsFail (NewCircuitBreaker cfg) times).lastFailTime ≤
      cfg.resetTimeout) :
    (callsFail (NewCircuitBreaker cfg) times).state = CBState.opened ∧
    (callsFail (NewCircuitBreaker cfg) times).call now b =
      (.circuitOpen, callsFail (NewCircuitBreaker cfg) times, false) := by
  have htimes : times ≠ [] := by
    intro h
    subst h
    simp at h2
    omega
  obtain ⟨hopen, hcfg⟩ :=
    callsFail_opens times (NewCircuitBreaker cfg) rfl htimes
      (by simp [NewCircuitBreaker, h2])
  refine ⟨hopen, call_open_failfast hopen ?_ b⟩
  have hc : (NewCircuitBreaker cfg).config = cfg := rfl
  rw [hcfg, hc]
  omega

/-- **C2, witness**: `maxFailures = 2`, two failing calls at times 3 and 7,
a third call at time 50 with `resetTimeout = 100` still pending. -/
theorem C2_open_failfast_witness :
    (callsFail (NewCircuitBreaker ⟨2, 100, 1⟩) [3, 7]).state = CBState.opened ∧
    (callsFail (NewCircuitBreaker ⟨2, 100, 1⟩) [3, 7]).call 50 true =
      (.circuitOpen, callsFail (NewCircuitBreaker ⟨2, 100, 1⟩) [3, 7], false) :=
  C2_open_failfast ⟨2, 100, 1⟩ [3, 7] 50 true (by norm_num) (by norm_num)
    (by simp [callsFail, CircuitBreaker.call, CircuitBreaker.openCheck,
      CircuitBreaker.exec, NewCircuitBreaker])

/-- **C3.** If the breaker is `Open` and strictly more than `resetTimeout` has
elapsed since `lastFailTime`, the next `Call` passes through `HalfOpen`
(provided the validated-config bound `1 ≤ halfOpenMaxCalls`, so the half-open
budget is not already spent) and executes the operation in that same call;
when the operation succeeds, `Call` returns nil and leaves the breaker
`Closed` with `failureCount = 0` (and `successCount = 1`). -/
theorem C3_halfopen_success (cb : CircuitBreaker) (now : ℤ)
    (h1 : cb.state = CBState.opened)
    (h2 : now - cb.lastFailTime > cb.config.resetTimeout)
    (h3 : 1 ≤ cb.config.halfOpenMaxCalls) :
    cb.call now false =
      (.ok,
        { cb with state := .closed, failureCount := 0, successCount := 1 },
        true) := by
  have h4 : ¬ ((0 : ℤ) ≥ cb.config.halfOpenMaxCalls) := by omega
  simp [CircuitBreaker.call, CircuitBreaker.openCheck, CircuitBreaker.exec,
    h1, h2, h4]

/-- **C3, witness**: an open breaker with `resetTimeout = 10`, last failure at
time 0, called successfully at time 20. -/
theorem C3_halfopen_success_witness :
    (⟨⟨1, 10, 1⟩, .opened, 1, 0, 0⟩ : CircuitBreaker).call 20 false =
      (.ok, ⟨⟨1, 10, 1⟩, .closed, 0, 0, 1⟩, true) :=
  C3_halfopen_success ⟨⟨1, 10, 1⟩, .opened, 1, 0, 0⟩ 20 rfl (by norm_num)
    (by norm_num)

/-- **C7.** For every reachable breaker, a `Call` whose wrapped operation
fails while the breaker is in `HalfOpen` — i.e. the lazy open-check phase of
that call yields a `HalfOpen` breaker (`hstep`) whose half-open budget is not
spent, so the operation is actually invoked — records `lastFailTime = now`
and transitions the breaker back to `Open`. -/
theorem C7_halfopen_fail_reopens (cb : CircuitBreaker) (now : ℤ)
    (hr : cb.Reachable) (cb1 : CircuitBreaker)
    (hstep : cb.openCheck now = .inr cb1)
    (hhalf : cb1.state = CBState.halfOpen)
    (hbudget : cb1.successCount < cb1.config.halfOpenMaxCalls) :
    (cb.call now true).2.1.state = CBState.opened ∧
    (cb.call now true).2.1.lastFailTime = now ∧
    (cb.call now true).2.2 = true := by
  have hinvcb := reachable_failureCount_ge hr
  have hinv : cb1.config.maxFailures ≤ cb1.failureCount := by
    unfold CircuitBreaker.openCheck at hstep
    split_ifs at hstep with ha hb
    · obtain rfl : { cb with state := CBState.halfOpen, successCount := 0 }
          = cb1 := by simpa using hstep
      exact hinvcb (Or.inl ha)
    · obtain rfl : cb = cb1 := by simpa using hstep
      exact hinvcb (Or.inr hhalf)
  have hb2 : ¬ (cb1.successCount ≥ cb1.config.halfOpenMaxCalls) :=
    not_le.mpr hbudget
  have hopen2 : cb1.config.maxFailures ≤ cb1.failureCount + 1 := by omega
  simp [CircuitBreaker.call, hstep, CircuitBreaker.exec, hhalf, hb2, hopen2]

/-- **C7, witness**: with `maxFailures = 1` and `resetTimeout = 10`, one
failing call at time 0 opens the fresh breaker (a reachable state); a failing
call at time 20 passes the open check into `HalfOpen` and re-opens the
breaker, recording `lastFailTime = 20`. -/
theorem C7_halfopen_fail_reopens_witness :
    ((⟨⟨1, 10, 1⟩, .opened, 1, 0, 0⟩ : CircuitBreaker).call 20 true).2.1.state
        = CBState.opened ∧
    ((⟨⟨1, 10, 1⟩, .opened, 1, 0, 0⟩ : CircuitBreaker).call 20 true).2.1.lastFailTime
        = 20 ∧
    ((⟨⟨1, 10, 1⟩, .opened, 1, 0, 0⟩ : CircuitBreaker).call 20 true).2.2 = true :=
  C7_halfopen_fail_reopens ⟨⟨1, 10, 1⟩, .opened, 1, 0, 0⟩ 20
    (CircuitBreaker.Reachable.step 0 true
      (CircuitBreaker.Reachable.base ⟨1, 10, 1⟩))
    ⟨⟨1, 10, 1⟩, .halfOpen, 1, 0, 0⟩ rfl rfl (by norm_num)

/-- As long as the circuit breaker stays `Closed` throughout (its failure
count has room for all remaining iterations), a run of `retryGo` against an
always-failing function performs one wrapped-function invocation per
remaining iteration and ends with the `ErrRetryExhausted` wrapper carrying
the operation label, the attempt count `maxRetries + 1` and the error of the
final invocation. -/
lemma retryGo_allFail (rc : RetryConfig) (op : String) (fnFails : ℕ → Bool)
    (hf : ∀ i, fnFails i = true) :
    ∀ r : ℕ, 1 ≤ r →
      ∀ (attempt : ℕ) (st : RetryState) (lastErr : Option RetryErr),
        st.cb.state = .closed →
        st.cb.failureCount + r ≤ st.cb.config.maxFailures →
        (retryGo rc false op fnFails r attempt st lastErr).2.invocations
            = st.invocations + r ∧
        (retryGo rc false op fnFails r attempt st lastErr).1
            = RetryOutcome.exhausted op (rc.maxRetries + 1)
                (some (.fnErr (st.invocations + (r - 1)))) := by
  intro r
  induction r with
  | zero => intro h; exact absurd h (by omega)
  | succ n ih =>
    intro _ attempt st lastErr hclosed hcount
    cases n with
    | zero =>
      simp [retryGo, call_closed_fail hclosed, hf]
    | succ m =>
      have hcond : ¬ (st.cb.config.maxFailures ≤ st.cb.failureCount + 1) := by
        push_cast at hcount
        omega
      have hstep : retryGo rc false op fnFails (m + 1 + 1) attempt st lastErr =
          retryGo rc false op fnFails (m + 1) (attempt + 1)
            { cb := { config := st.cb.config, state := st.cb.state,
                      failureCount := st.cb.failureCount + 1,
                      lastFailTime := st.now,
                      successCount := st.cb.successCount },
              now := st.now + max (calculateDelay rc attempt st.now) 0,
              invocations := st.invocations + 1,
              sleeps := st.sleeps + 1 }
            (some (.fnErr st.invocations)) := by
        conv_lhs => rw [retryGo]
        simp [call_closed_fail hclosed, hf, hcond]
      rw [hstep]
      obtain ⟨h1, h2⟩ := ih (by omega) (attempt + 1)
        { cb := { config := st.cb.config, state := st.cb.state,
                  failureCount := st.cb.failureCount + 1,
                  lastFailTime := st.now,
                  successCount := st.cb.successCount },
          now := st.now + max (calculateDelay rc attempt st.now) 0,
          invocations := st.invocations + 1,
          sleeps := st.sleeps + 1 }
        (some (.fnErr st.invocations)) hclosed
        (by show st.cb.failureCount + 1 + ((m + 1 : ℕ) : ℤ) ≤
              st.cb.config.maxFailures
            push_cast at hcount ⊢
            omega)
      refine ⟨?_, ?_⟩
      · rw [h1]
        show st.invocations + 1 + (m + 1) = st.invocations + (m + 1 + 1)
        omega
      · rw [h2]
        show RetryOutcome.exhausted op (rc.maxRetries + 1)
            (some (.fnErr (st.invocations + 1 + (m + 1 - 1)))) = _
        have harith : st.invocations + 1 + (m + 1 - 1)
            = st.invocations + (m + 1 + 1 - 1) := by omega
        rw [harith]

/-- **C4, counterexample.** The claim that `retryWithBackoff` with a
never-cancelled context and an always-failing function invokes the function
exactly `maxRetries + 1` times is false: with `maxRetries = 1` and a breaker
configured with `maxFailures = 1` and a long `resetTimeout`, the first
failing attempt opens the breaker, so the second attempt returns
`ErrCircuitOpen` *without invoking* the function — only 1 invocation instead
of `maxRetries + 1 = 2` (the returned wrapper is
`exhausted "connect" 2 (some circuitOpen)`). -/
theorem C4_counterexample :
    (∀ i : ℕ, (fun _ : ℕ => true) i = true) ∧
    (retryWithBackoff ⟨1, 1, 1, 1, false⟩ (NewCircuitBreaker ⟨1, 1000000, 1⟩)
        false "connect" (fun _ => true) 0).2.invocations = 1 ∧
    (retryWithBackoff ⟨1, 1, 1, 1, false⟩ (NewCircuitBreaker ⟨1, 1000000, 1⟩)
        false "connect" (fun _ => true) 0).1
      = RetryOutcome.exhausted "connect" 2 (some .circuitOpen) ∧
    ((⟨1, 1, 1, 1, false⟩ : RetryConfig).maxRetries + 1).toNat ≠ 1 := by
  refine ⟨fun _ => rfl, ?_, ?_, by decide⟩ <;>
    simp [retryWithBackoff, retryGo, CircuitBreaker.call,
      CircuitBreaker.openCheck, CircuitBreaker.exec, NewCircuitBreaker,
      calculateDelay, durTrunc, Int.fract_intCast]

/-- **C4, amended.** For every always-failing function, a never-cancelled
context, a nonnegative `maxRetries` and a *fresh* circuit breaker whose
failure threshold is not hit within the run (`maxRetries + 1 ≤ maxFailures`,
so the breaker never fails fast), `retryWithBackoff` invokes the function
exactly `maxRetries + 1` times and returns the error wrapping
`ErrRetryExhausted` that carries the operation label, the attempt count
`maxRetries + 1`, and the error of the last (final) invocation. -/
theorem C4_amended (rc : RetryConfig) (cbc : CircuitBreakerConfig)
    (op : String) (fnFails : ℕ → Bool) (t0 : ℤ)
    (hf : ∀ i, fnFails i = true)
    (hm : 0 ≤ rc.maxRetries)
    (hcap : rc.maxRetries + 1 ≤ cbc.maxFailures) :
    (retryWithBackoff rc (NewCircuitBreaker cbc) false op fnFails t0).2.invocations
        = (rc.maxRetries + 1).toNat ∧
    (retryWithBackoff rc (NewCircuitBreaker cbc) false op fnFails t0).1
        = RetryOutcome.exhausted op (rc.maxRetries + 1)
            (some (.fnErr rc.maxRetries.toNat)) := by
  obtain ⟨h1, h2⟩ := retryGo_allFail rc op fnFails hf
    (rc.maxRetries + 1).toNat (by omega) 0
    { cb := NewCircuitBreaker cbc, now := t0, invocations := 0, sleeps := 0 }
    none rfl (by simp [NewCircuitBreaker]; omega)
  refine ⟨by simpa using h1, ?_⟩
  rw [retryWithBackoff, h2]
  have harith : 0 + ((rc.maxRetries + 1).toNat - 1) = rc.maxRetries.toNat := by
    omega
  rw [harith]

/-- **C4, witness for the amended theorem**: `maxRetries = 2` against a fresh
breaker with `maxFailures = 5` — three invocations, and the exhausted wrapper
carries attempt count 3 and the third invocation's error. -/
theorem C4_amended_witness :
    (retryWithBackoff ⟨2, 1, 1, 1, false⟩ (NewCircuitBreaker ⟨5, 1000, 1⟩)
        false "connect" (fun _ => true) 0).2.invocations
      = (((⟨2, 1, 1, 1, false⟩ : RetryConfig)).maxRetries + 1).toNat ∧
    (retryWithBackoff ⟨2, 1, 1, 1, false⟩ (NewCircuitBreaker ⟨5, 1000, 1⟩)
        false "connect" (fun _ => true) 0).1
      = RetryOutcome.exhausted "connect"
          ((⟨2, 1, 1, 1, false⟩ : RetryConfig).maxRetries + 1)
          (some (.fnErr (⟨2, 1, 1, 1, false⟩ : RetryConfig).maxRetries.toNat)) :=
  C4_amended ⟨2, 1, 1, 1, false⟩ ⟨5, 1000, 1⟩ "connect" (fun _ => true) 0
    (fun _ => rfl) (by norm_num) (by norm_num)

/-- **C8.** A pre-cancelled context makes `retryWithBackoff` (with the
validated-config bound `0 ≤ maxRetries`, so the loop body is entered at
least once and the `select` at its top observes the cancellation) return the
context's error with zero wrapped-function invocations — in particular at
most the first attempt executed — zero inter-retry sleeps, and the breaker
and clock untouched. -/
theorem C8_precancelled (rc : RetryConfig) (cb : CircuitBreaker) (op : String)
    (fnFails : ℕ → Bool) (t0 : ℤ) (hm : 0 ≤ rc.maxRetries) :
    retryWithBackoff rc cb true op fnFails t0 =
      (.ctxErr, { cb := cb, now := t0, invocations := 0, sleeps := 0 }) := by
  rw [retryWithBackoff]
  obtain ⟨k, hk⟩ : ∃ k, (rc.maxRetries + 1).toNat = k + 1 :=
    ⟨rc.maxRetries.toNat, by omega⟩
  rw [hk]
  simp [retryGo]

/-- **C8, witness**: a pre-cancelled context with `maxRetries = 2` returns
the context error without invoking anything or sleeping. -/
theorem C8_precancelled_witness :
    retryWithBackoff ⟨2, 1, 1, 1, false⟩ (NewCircuitBreaker ⟨5, 1000, 1⟩)
        true "connect" (fun _ => true) 7 =
      (.ctxErr,
        { cb := NewCircuitBreaker ⟨5, 1000, 1⟩, now := 7, invocations := 0,
          sleeps := 0 }) :=
  C8_precancelled ⟨2, 1, 1, 1, false⟩ (NewCircuitBreaker ⟨5, 1000, 1⟩)
    "connect" (fun _ => true) 7 (by norm_num)

/-- **C9, counterexample.** The claim that whenever `checkConnectionHealth`
is called twice within 5 seconds the second call returns nil without probing
is false: `lastHealthCheck` is only advanced by a *successful* probe.  For a
connected client whose probe fails, a first call at `t1 = 10s` (since the
zero `lastHealthCheck`) probes and fails without updating `lastHealthCheck`,
and a second call at `t2 = 11s` — one second later — probes again (and fails)
instead of returning nil probe-free. -/
theorem C9_counterexample :
    (11000000000 : ℤ) - 10000000000 < 5000000000 ∧
    ((⟨true, "vin", true, ⟨3, 1, 1, 1, false⟩, NewCircuitBreaker ⟨1, 1, 1⟩, 0⟩
          : Client).checkConnectionHealth 10000000000 true).2.2 = true ∧
    (((⟨true, "vin", true, ⟨3, 1, 1, 1, false⟩, NewCircuitBreaker ⟨1, 1, 1⟩, 0⟩
            : Client).checkConnectionHealth 10000000000 true).2.1.checkConnectionHealth
        11000000000 true).1 = HealthResult.connectionLost ∧
    (((⟨true, "vin", true, ⟨3, 1, 1, 1, false⟩, NewCircuitBreaker ⟨1, 1, 1⟩, 0⟩
            : Client).checkConnectionHealth 10000000000 true).2.1.checkConnectionHealth
        11000000000 true).2.2 = true := by
  refine ⟨by norm_num, ?_, ?_, ?_⟩ <;>
    simp [Client.checkConnectionHealth]

/-- **C9, amended.** If the first of the two calls actually performs the
probe and the probe succeeds (so `lastHealthCheck` is set to its call time
`t1`), then a second call within 5 seconds of `t1` returns nil without
invoking the probe, whatever the probe's outcome would have been. -/
theorem C9_amended (c : Client) (t1 t2 : ℤ) (pf2 : Bool)
    (hprobed : (c.checkConnectionHealth t1 false).2.2 = true)
    (h4 : t2 - t1 < 5000000000) :
    ((c.checkConnectionHealth t1 false).2.1).checkConnectionHealth t2 pf2 =
      (.ok, (c.checkConnectionHealth t1 false).2.1, false) := by
  have hlast : (c.checkConnectionHealth t1 false).2.1.lastHealthCheck = t1 := by
    unfold Client.checkConnectionHealth at hprobed ⊢
    split_ifs at hprobed ⊢ <;> simp_all
  rw [Client.checkConnectionHealth, hlast, if_pos (by omega)]

/-- **C9, witness for the amended theorem**: a healthy probe at `t1 = 10s`
followed one second later by a second call, which skips the probe and
reports healthy. -/
theorem C9_amended_witness :
    (((⟨true, "vin", true, ⟨3, 1, 1, 1, false⟩, NewCircuitBreaker ⟨1, 1, 1⟩, 0⟩
          : Client).checkConnectionHealth 10000000000 false).2.1).checkConnectionHealth
        11000000000 true =
      (.ok,
        ((⟨true, "vin", true, ⟨3, 1, 1, 1, false⟩, NewCircuitBreaker ⟨1, 1, 1⟩, 0⟩
            : Client).checkConnectionHealth 10000000000 false).2.1,
        false) :=
  C9_amended
    ⟨true, "vin", true, ⟨3, 1, 1, 1, false⟩, NewCircuitBreaker ⟨1, 1, 1⟩, 0⟩
    10000000000 11000000000 true
    (by simp [Client.checkConnectionHealth]) (by norm_num)

/-- **C5.** `BLEConnection.Disconnect` is idempotent: a second `Disconnect`
leaves exactly the state the first one produced; from any starting state the
result has `state = StateDisconnected` (and an inactive session).  The Go
method returns no error and cannot panic (both external release calls are
nil-guarded), which is reflected by `BLEConnection.disconnect` being a total
function. -/
theorem C5_disconnect_idempotent (bc : BLEConnection) :
    bc.disconnect.disconnect = bc.disconnect ∧
    bc.disconnect.state = ConnState.disconnected ∧
    bc.disconnect.sessionActive = false :=
  ⟨rfl, rfl, rfl⟩

/-- **C6.** The claim that with jitter enabled repeated calls with the same
attempt index (at different clock times) do not all return an identical delay
is false on the code: `calculateDelay` is completely independent of the clock.
The jitter term is `delay * 0.25 * (0.5 - math.Mod(float64(UnixNano), 1.0))`,
and `float64` of an `int64` is always a whole number, so the `math.Mod` factor
is always `0` and the "jitter" is the deterministic constant `+12.5%`. -/
theorem C6_delay_time_independent (c : RetryConfig) (a : ℕ) (t1 t2 : ℤ) :
    calculateDelay c a t1 = calculateDelay c a t2 := by
  simp [calculateDelay, Int.fract_intCast]

/-- **C10.** `Client.Disconnect` leaves the `vehicle` and `conn` fields
unchanged (it only invokes their release methods — the two returned flags —
and never sets the fields to nil); consequently `IsConnected` returns after
`Disconnect` exactly what it returned before, so a connected client still
reports connected. -/
theorem C10_disconnect_frame (c : Client) :
    c.disconnect.1.vehicle = c.vehicle ∧
    c.disconnect.1.conn = c.conn ∧
    c.disconnect.1.isConnected = c.isConnected ∧
    c.disconnect.2 = (c.vehicle, c.conn) :=
  ⟨rfl, rfl, rfl, rfl⟩

end Tesla
